import Mathlib

/-!
# finder: single-instance cursor locator (src/finder.c)

A shallow embedding of `finder.c`.  C `int` values are modelled as `Int`
(no arithmetic in the program can overflow 32 bits), the bitwise `&` of
`event_loop` is computed on the 32-bit two's complement patterns, and the
calls the program makes to the operating system, Xlib and cairo are recorded
in explicit traces.
-/

namespace Finder

/-! ## event_loop (finder.c 221-238) -/

/-- The 32-bit two's complement pattern of a C `int`. -/
def int_bits (x : Int) : Nat := (x % 2 ^ 32).toNat

/-- The pattern of `x & y` on two C `int`s. -/
def int_and (x y : Int) : Nat := int_bits x &&& int_bits y

/-- One keyboard sample of `event_loop`: the 32 bytes `XQueryKeymap` stored in
`char key_map[32]` (each byte with the value the C `char` holds, negative when
`char` is signed and the top bit is set) and the `KeyCode` returned by
`XKeysymToKeycode(d, XK_Pause)`. -/
structure Snapshot where
  key_map : List Int
  keycode : Nat
deriving DecidableEq, Repr

/-- A snapshot the program can really receive: 32 bytes, each inside the range
of a signed or of an unsigned `char`, and an 8-bit `KeyCode`. -/
def Snapshot.wf (s : Snapshot) : Prop :=
  s.key_map.length = 32 ∧ (∀ b ∈ s.key_map, -128 ≤ b ∧ b ≤ 255) ∧ s.keycode < 256

instance (s : Snapshot) : Decidable s.wf := by
  unfold Snapshot.wf; exact inferInstance

/-- Line 228: `is_pressed = !!(key_map[keycode >> 3] & (1 << (keycode % 8)))`.
The array read is checked: `none` stands for a read outside `key_map`. -/
def is_pressed (key_map : List Int) (keycode : Nat) : Option Int :=
  match key_map[keycode >>> 3]? with
  | none => none
  | some byte => some (if int_and byte (1 <<< (keycode % 8) : Nat) ≠ 0 then 1 else 0)

/-- Lines 230-234: the update of `show_lines` from `is_pressed`. -/
def update_show_lines (show_lines pressed : Int) : Int :=
  if show_lines ≠ 0 ∧ ¬ pressed ≠ 0 then 0
  else if ¬ show_lines ≠ 0 ∧ pressed ≠ 0 then 1
  else show_lines

/-- One iteration of the `while(1)` body of `event_loop`: the new `show_lines`. -/
def event_loop_tick (s : Snapshot) (show_lines : Int) : Option Int :=
  match is_pressed s.key_map s.keycode with
  | none => none
  | some p => some (update_show_lines show_lines p)

/-- The loop of `event_loop` fed one snapshot per iteration: the values of
`show_lines` after each iteration. -/
def event_loop : List Snapshot → Int → Option (List Int)
  | [], _ => some []
  | s :: rest, show_lines =>
    match event_loop_tick s show_lines with
    | none => none
    | some v =>
      match event_loop rest v with
      | none => none
      | some vs => some (v :: vs)

/-- Bit `keycode mod 8` of byte `keycode div 8` of the keymap, the byte taken
as its 8-bit pattern: 1 when set, 0 when clear (and 0 past the end). -/
def keymap_bit (key_map : List Int) (keycode : Nat) : Int :=
  if ((key_map.getD (keycode / 8) 0 % 256).toNat).testBit (keycode % 8) then 1 else 0

/-- The 32 bytes of the keymap read as one little-endian number. -/
def bitmap_value : List Int → Nat
  | [] => 0
  | b :: rest => (b % 256).toNat + 256 * bitmap_value rest

/-- A keymap whose bytes are all 0 except byte `i`, which holds `byte`. -/
def keymap_with (i : Nat) (byte : Int) : List Int :=
  (List.replicate 32 (0 : Int)).set i byte

/-- The designated key (keycode 127, so byte 15, bit 7) not pressed. -/
def snap_up : Snapshot := { key_map := keymap_with 15 0, keycode := 127 }

/-- The designated key pressed; byte 15 holds the signed `char` value -128. -/
def snap_down : Snapshot := { key_map := keymap_with 15 (-128), keycode := 127 }

/-! ## line_thread (finder.c 89-170) -/

/-- What the X server answers about one screen during a pass: its size, whether
`XMatchVisualInfo(d, scr_no, 32, TrueColor, &vinfo)` finds a visual, and the
`win_x, win_y` of `XQueryPointer` (`none` when the query returns False). -/
structure Screen where
  width : Int
  height : Int
  visual : Bool
  pointer : Option (Int × Int)
deriving DecidableEq, Repr

/-- The calls `line_thread` issues, in program order.  Calls that concern one
screen carry its number `scr_no`. -/
inductive XCall where
  | usleep (usec : Nat)
  | XScreenCount
  | XRootWindow (scr_no : Nat)
  | XScreenOfDisplay (scr_no : Nat)
  | XMatchVisualInfo (scr_no : Nat)
  | XCreateColormap (scr_no : Nat)
  | XQueryPointer (scr_no : Nat)
  | XCreateWindow (scr_no : Nat) (width height : Int)
  | XMapWindow (scr_no : Nat)
  | cairo_xlib_surface_create (scr_no : Nat) (width height : Int)
  | cairo_create
  | cairo_set_source_rgb
  | cairo_set_line_width
  | cairo_move_to (x y : Int)
  | cairo_line_to (x y : Int)
  | cairo_stroke
  | XFlush
  | cairo_destroy
  | cairo_surface_destroy
  | XUnmapWindow (scr_no : Nat)
  | XDestroyWindow (scr_no : Nat)
deriving DecidableEq, Repr

/-- A straight segment: the `cairo_move_to` point and the `cairo_line_to` point. -/
abbrev Segment := (Int × Int) × (Int × Int)

/-- Lines 143-150: the two nested loops over `a` and `b`, each segment going
from `((width>>3)*a, (height>>3)*b)` to `(win_x, win_y)`. -/
def grid_segments (width height win_x win_y : Int) : List Segment :=
  (List.range 9).flatMap fun a =>
    (List.range 9).flatMap fun b =>
      if a = 0 ∨ a = 8 ∨ b = 0 ∨ b = 8 then
        [(((width >>> (3 : Nat)) * (a : Int), (height >>> (3 : Nat)) * (b : Int)), (win_x, win_y))]
      else []

/-- The cairo path calls of lines 146-147 for a list of segments. -/
def segment_calls (segs : List Segment) : List XCall :=
  segs.flatMap fun s => [XCall.cairo_move_to s.1.1 s.1.2, XCall.cairo_line_to s.2.1 s.2.2]

/-- The segments a list of calls draws: each `cairo_move_to` directly followed
by a `cairo_line_to`. -/
def drawn_segments : List XCall → List Segment
  | XCall.cairo_move_to x y :: XCall.cairo_line_to u v :: rest =>
    ((x, y), (u, v)) :: drawn_segments rest
  | _ :: rest => drawn_segments rest
  | [] => []

/-- Lines 97-119 up to and including `XQueryPointer`, for a screen with a visual. -/
def probe_calls (scr_no : Nat) : List XCall :=
  [XCall.XScreenCount, XCall.XRootWindow scr_no, XCall.XScreenOfDisplay scr_no,
   XCall.XMatchVisualInfo scr_no, XCall.XCreateColormap scr_no, XCall.XQueryPointer scr_no]

/-- Lines 124-154: create and map the overlay, draw the grid, stroke and flush. -/
def paint_calls (scr_no : Nat) (s : Screen) (win_x win_y : Int) : List XCall :=
  [XCall.XCreateWindow scr_no s.width s.height, XCall.XMapWindow scr_no,
   XCall.cairo_xlib_surface_create scr_no s.width s.height, XCall.cairo_create,
   XCall.cairo_set_source_rgb, XCall.cairo_set_line_width]
  ++ segment_calls (grid_segments s.width s.height win_x win_y)
  ++ [XCall.cairo_stroke, XCall.XFlush]

/-- Lines 160-166: destroy the cairo objects and the overlay window. -/
def teardown_calls (scr_no : Nat) : List XCall :=
  [XCall.cairo_destroy, XCall.cairo_surface_destroy, XCall.XUnmapWindow scr_no,
   XCall.XDestroyWindow scr_no, XCall.XFlush]

/-- Control points of `line_thread`: the test of `while ( may_run )`, the test
of `if ( !show_lines )`, the head of the `for` loop with a value of `scr_no`,
the test of `while ( show_lines )` for the overlay of screen `scr_no`, and
after `return NULL`. -/
inductive PC where
  | loop_head
  | check_show
  | screen (scr_no : Nat)
  | hold (scr_no : Nat)
  | returned
deriving DecidableEq, Repr

/-- One step of `line_thread` from a control point, given the values the two
shared flags have at that moment: the next control point and the calls issued.
Each read of a shared flag is a step of its own; the body of the `for` loop up
to the hold loop is one step (it reads no flag). -/
def line_thread_step (disp : List Screen) (may_run show_lines : Int) : PC → PC × List XCall
  | PC.loop_head => if may_run ≠ 0 then (PC.check_show, []) else (PC.returned, [])
  | PC.check_show =>
    if ¬ show_lines ≠ 0 then (PC.loop_head, [XCall.usleep 10000]) else (PC.screen 0, [])
  | PC.screen scr_no =>
    match disp[scr_no]? with
    | none => (PC.loop_head, [XCall.XScreenCount])
    | some s =>
      if ¬ s.visual then
        (PC.screen (scr_no + 1),
          [XCall.XScreenCount, XCall.XRootWindow scr_no, XCall.XScreenOfDisplay scr_no,
           XCall.XMatchVisualInfo scr_no])
      else
        match s.pointer with
        | none => (PC.screen (scr_no + 1), probe_calls scr_no)
        | some (win_x, win_y) =>
          (PC.hold scr_no, probe_calls scr_no ++ paint_calls scr_no s win_x win_y)
  | PC.hold scr_no =>
    if show_lines ≠ 0 then (PC.hold scr_no, [XCall.usleep 1000])
    else (PC.screen (scr_no + 1), teardown_calls scr_no)
  | PC.returned => (PC.returned, [])

/-- The renderer run for `n` steps from control point `pc` at time `t`; the
flags have the values `may_run i` and `show_lines i` at time `i` (the other
context writes them).  Result: the control point reached and, per step, the
calls issued at that moment. -/
def line_thread (disp : List Screen) (may_run show_lines : Nat → Int) :
    Nat → PC → Nat → PC × List (List XCall)
  | _, pc, 0 => (pc, [])
  | t, pc, n + 1 =>
    let r := line_thread_step disp (may_run t) (show_lines t) pc
    let rest := line_thread disp may_run show_lines (t + 1) r.1 n
    (rest.1, r.2 :: rest.2)

/-- Control points between passes: the two tests at the top of the outer loop,
and the end of the routine. -/
def PC.idle : PC → Bool
  | PC.loop_head => true
  | PC.check_show => true
  | PC.returned => true
  | _ => false

/-- A window-creation call: `XCreateColormap`, `XCreateWindow` or `XMapWindow`. -/
def XCall.is_creation : XCall → Bool
  | XCall.XCreateColormap _ => true
  | XCall.XCreateWindow _ _ _ => true
  | XCall.XMapWindow _ => true
  | _ => false

/-- A call that creates, maps or removes the overlay of screen `k`. -/
def XCall.is_overlay_of (k : Nat) : XCall → Bool
  | XCall.XCreateWindow j _ _ => j = k
  | XCall.XMapWindow j => j = k
  | XCall.XUnmapWindow j => j = k
  | XCall.XDestroyWindow j => j = k
  | XCall.cairo_xlib_surface_create j _ _ => j = k
  | _ => false

/-- The grid the specification describes: the points `(i*W/8, j*H/8)` for
`i, j` in `0..8` on the outer border, each joined to the pointer. -/
def spec_segments (W H x y : Int) : List Segment :=
  (List.range 9).flatMap fun i =>
    (List.range 9).flatMap fun j =>
      if i = 0 ∨ i = 8 ∨ j = 0 ∨ j = 8 then
        [((((i : Int) * W) / 8, ((j : Int) * H) / 8), (x, y))]
      else []

/-- Number of steps after which a renderer that has not returned, with
`may_run` cleared and `show_lines` frozen, will never return. -/
def join_fuel (disp : List Screen) : Nat := 2 * disp.length + 4

/-- The renderer as `pthread_join` sees it from `close_display`: `may_run` is 0
and `show_lines` keeps its value (its only writer, `event_loop`, is the context
now running `close_display`).  `some calls` when the thread returns, with the
calls it still issued; `none` when it never returns. -/
def renderer_finish (disp : List Screen) (show_lines : Int) (pc : PC) : Option (List XCall) :=
  let r := line_thread disp (fun _ => 0) (fun _ => show_lines) 0 pc (join_fuel disp)
  if r.1 = PC.returned then some r.2.flatten else none

/-- A display with one 1920 x 1080 screen, pointer at (100, 200). -/
def one_screen : List Screen := [⟨1920, 1080, true, some (100, 200)⟩]

/-- A display with two screens, the pointer answered on both. -/
def two_screens : List Screen :=
  [⟨1920, 1080, true, some (100, 200)⟩, ⟨1280, 1024, true, some (5, 7)⟩]

/-- A display with one screen 10 wide and 16 high, pointer at (3, 4). -/
def small_screen : List Screen := [⟨10, 16, true, some (3, 4)⟩]

/-- A display whose only screen has the visual and fails `XQueryPointer`. -/
def blind_screen : List Screen := [⟨1920, 1080, true, none⟩]

/-! ## The lock file, the process and its system calls -/

/-- The operation argument of `flock`. -/
inductive FlockOp where
  | LOCK_EX_NB
  | LOCK_UN
deriving DecidableEq, Repr

/-- The messages the program prints with `printf`. -/
inductive Msg where
  /-- The text "failed to open %s, error %i". -/
  | failed_to_open
  /-- The text "failed to lock %s, error %i". -/
  | failed_to_lock
  /-- The text "failed to obtain global mutex %s". -/
  | failed_to_obtain
  /-- The text "unlock failed". -/
  | unlock_failed
  /-- The text "close failed". -/
  | close_failed
  /-- The text "shutting down". -/
  | shutting_down
deriving DecidableEq, Repr

/-- The calls of the main context, in program order, with their results. -/
inductive Sys where
  | sys_open (ret : Int)
  | flock (fd : Int) (op : FlockOp) (ret : Int)
  | close (fd : Int) (ret : Int)
  | getpid (ret : Int)
  | write (fd : Int) (bytes : List Char) (ret : Int)
  | fsync (fd : Int)
  | unlink
  | daemon
  | printf (m : Msg)
  | XOpenDisplay
  | XCloseDisplay
  | signal (signum : Int)
  | pthread_attr_init (ret : Int)
  | pthread_create (ret : Int)
  | pthread_join
  | renderer (c : XCall)
  | exit (status : Int)
deriving DecidableEq, Repr

/-- What the environment decides for one run of a routine: the descriptor
`open` hands out (`none` when `open` fails), whether `flock`, `close` and
`write` report an error of their own, the process identifier `getpid` returns,
the results of the two pthread calls of `launch_thread`, whether
`XOpenDisplay` fails (returns NULL), and the screens of the display. -/
structure Env where
  open_result : Option Nat
  flock_error : Bool
  unlock_error : Bool
  close_error : Bool
  write_error : Bool
  pid : Int
  attr_init_ret : Int
  create_ret : Int
  display_fails : Bool
  screens : List Screen
deriving DecidableEq, Repr

/-- The globals of `finder.c` (lines 22-28) together with what the kernel
holds for the process and for the lock file `/dev/shm/finder`. -/
structure State where
  /-- Content of the file at `mutex_path`; `none` when the path does not exist. -/
  file : Option (List Char)
  /-- Some open file description holds the exclusive `flock` on the file. -/
  locked : Bool
  /-- The holder of that lock is this process. -/
  holds_lock : Bool
  /-- The descriptor this process has open on the lock file, if any. -/
  open_fd : Option Int
  /-- File offset of that descriptor. -/
  offset : Nat
  mutex_fd : Int
  may_run : Int
  show_lines : Int
  thread_id : Nat
  daemonize : Int
  /-- The handle `d` is a live display connection (false while `d` is NULL, as at
  start and after a failed `XOpenDisplay`, and once the connection is closed). -/
  display_open : Bool
  /-- Signals for which `close_display` is installed. -/
  handlers : List Int
  /-- Control point of the renderer thread (meaningful when `thread_id` is not 0). -/
  renderer : PC
  /-- The main context has entered `event_loop`. -/
  in_event_loop : Bool
  /-- Exit status once the process has terminated through `exit` or `main`. -/
  exit_status : Option Int
  /-- The process was terminated by a fault (a SIGSEGV it cannot handle). -/
  killed : Bool
  /-- Calls issued so far, oldest first. -/
  calls : List Sys
deriving DecidableEq, Repr

/-- A process that has just started, lines 22-28: `mutex_fd = -1` and the other
globals 0, on a system whose lock file has the given content and lock state. -/
def State.start (file : Option (List Char)) (locked : Bool) : State :=
  { file := file, locked := locked, holds_lock := false, open_fd := none, offset := 0,
    mutex_fd := -1, may_run := 0, show_lines := 0, thread_id := 0, daemonize := 0,
    display_open := false, handlers := [], renderer := PC.loop_head,
    in_event_loop := false, exit_status := none, killed := false, calls := [] }

/-- The state with one more call recorded. -/
def State.log (st : State) (c : Sys) : State := { st with calls := st.calls ++ [c] }

/-- The kernel side of `open(mutex_path, O_CREAT | O_RDWR, 0600)`: the file is
created empty when missing and is otherwise left as it is (no `O_TRUNC`); the
new descriptor starts at offset 0. -/
def sys_open (e : Env) (st : State) : Int × State :=
  match e.open_result with
  | none => (-1, st.log (Sys.sys_open (-1)))
  | some fd =>
    ((fd : Int), { st with file := some (st.file.getD []), open_fd := some (fd : Int),
                           offset := 0 }.log (Sys.sys_open fd))

/-- The kernel side of `flock(fd, LOCK_EX | LOCK_NB)`: fails on a descriptor that
is not open, when another open file description holds the lock, or on an error
of its own. -/
def sys_flock_ex (e : Env) (fd : Int) (st : State) : Int × State :=
  if st.open_fd ≠ some fd ∨ (st.locked = true ∧ st.holds_lock = false) ∨ e.flock_error = true then
    (-1, st.log (Sys.flock fd FlockOp.LOCK_EX_NB (-1)))
  else
    (0, { st with locked := true, holds_lock := true }.log (Sys.flock fd FlockOp.LOCK_EX_NB 0))

/-- The kernel side of `flock(fd, LOCK_UN)`. -/
def sys_flock_un (e : Env) (fd : Int) (st : State) : Int × State :=
  if st.open_fd ≠ some fd ∨ e.unlock_error = true then
    (-1, st.log (Sys.flock fd FlockOp.LOCK_UN (-1)))
  else if st.holds_lock = true then
    (0, { st with locked := false, holds_lock := false }.log (Sys.flock fd FlockOp.LOCK_UN 0))
  else
    (0, st.log (Sys.flock fd FlockOp.LOCK_UN 0))

/-- Releasing the descriptor of the lock file: a lock held through it is dropped. -/
def release_fd (st : State) : State :=
  if st.holds_lock = true then
    { st with open_fd := none, locked := false, holds_lock := false }
  else { st with open_fd := none }

/-- The kernel side of `close(fd)`: `EBADF` on a descriptor that is not open;
otherwise the descriptor is released, also when `close` reports an error. -/
def sys_close (e : Env) (fd : Int) (st : State) : Int × State :=
  if st.open_fd ≠ some fd then (-1, st.log (Sys.close fd (-1)))
  else if e.close_error = true then (-1, (release_fd st).log (Sys.close fd (-1)))
  else (0, (release_fd st).log (Sys.close fd 0))

/-- Bytes `new` stored over `old` from position `off` on. -/
def overwrite (old : List Char) (off : Nat) (new : List Char) : List Char :=
  old.take off ++ List.replicate (off - old.length) (Char.ofNat 0) ++ new
    ++ old.drop (off + new.length)

/-- The kernel side of `write(fd, s, n)`: all `n` bytes are stored at the file
offset, unless the descriptor is not open or the write reports an error. -/
def sys_write (e : Env) (fd : Int) (bytes : List Char) (st : State) : Int × State :=
  if st.open_fd ≠ some fd ∨ e.write_error = true then
    (-1, st.log (Sys.write fd bytes (-1)))
  else
    ((bytes.length : Int),
      { st with file := some (overwrite (st.file.getD []) st.offset bytes),
                offset := st.offset + bytes.length }.log
        (Sys.write fd bytes bytes.length))

/-- The kernel side of `unlink(mutex_path)`. -/
def sys_unlink (st : State) : State := { st with file := none }.log Sys.unlink

/-- The effect of `exit(status)` and of returning `status` from `main`: the
process ends and the kernel releases its descriptors. -/
def sys_exit (status : Int) (st : State) : State :=
  { release_fd st with exit_status := some status }.log (Sys.exit status)

/-- A fault inside the handler: `close_display` is installed for SIGSEGV too, so
it is entered again and reaches the same faulting call with the signal
blocked; the kernel then terminates the process and releases its descriptors.
No `exit` is reached. -/
def sys_fault (st : State) : State := { release_fd st with killed := true }

/-- The characters `snprintf(s, sizeof(s), "%li", pid)` produces. -/
def fmt_li (pid : Int) : List Char :=
  if pid < 0 then '-' :: Nat.toDigits 10 pid.natAbs else Nat.toDigits 10 pid.natAbs

/-! ## mutex_lock, mutex_reportpid, mutex_unlock (finder.c 31-87) -/

/-- Lines 31-50: the return value and the state left. -/
def mutex_lock (e : Env) (st : State) : Int × State :=
  let r := sys_open e st
  let st : State := { r.2 with mutex_fd := r.1 }
  if st.mutex_fd = -1 then
    (1, st.log (Sys.printf Msg.failed_to_open))
  else
    let r := sys_flock_ex e st.mutex_fd st
    if r.1 < 0 then
      let st := r.2.log (Sys.printf Msg.failed_to_lock)
      let st := (sys_close e st.mutex_fd st).2
      (1, { st with mutex_fd := -1 })
    else (0, r.2)

/-- Lines 52-61; the results of `write` and `fsync` are ignored. -/
def mutex_reportpid (e : Env) (st : State) : State :=
  let pid := e.pid
  let st := st.log (Sys.getpid pid)
  let s := fmt_li pid
  let n : Int := s.length
  if n < 0 then st
  else
    let st := (sys_write e st.mutex_fd s st).2
    st.log (Sys.fsync st.mutex_fd)

/-- Lines 63-87; `mutex_fd` is not assigned. -/
def mutex_unlock (e : Env) (st : State) : State :=
  if st.mutex_fd = -1 then st
  else
    let r := sys_flock_un e st.mutex_fd st
    if r.1 < 0 then
      if ¬ st.daemonize ≠ 0 then r.2.log (Sys.printf Msg.unlock_failed) else r.2
    else
      let r := sys_close e r.2.mutex_fd r.2
      if r.1 = -1 then
        if ¬ st.daemonize ≠ 0 then r.2.log (Sys.printf Msg.close_failed) else r.2
      else sys_unlink r.2

/-! ## close_display, initialize, launch_thread, main (finder.c 172-257) -/

/-- The signal numbers of lines 198-202 (Linux values of `signal.h`). -/
def SIGINT : Int := 2
def SIGABRT : Int := 6
def SIGBUS : Int := 7
def SIGSEGV : Int := 11
def SIGTERM : Int := 15

/-- The signals `initialize` registers, in the order of lines 198-202. -/
def registered_signals : List Int := [SIGINT, SIGABRT, SIGTERM, SIGBUS, SIGSEGV]

/-- The shutdown routine, lines 172-184.  `none` when `pthread_join` never
returns because the renderer thread never does.  `XCloseDisplay(d)` reads
through the handle `d`, which line 195 stored unchecked: when `d` is no live
connection the call faults, before `mutex_unlock` and `exit`. -/
def close_display (e : Env) (_sig : Int) (st : State) : Option State :=
  let st := if ¬ st.daemonize ≠ 0 then st.log (Sys.printf Msg.shutting_down) else st
  let st := { st with may_run := 0 }
  let joined : Option State :=
    if st.thread_id ≠ 0 then
      match renderer_finish e.screens st.show_lines st.renderer with
      | none => none
      | some cs =>
        some { st with renderer := PC.returned,
                       calls := st.calls ++ [Sys.pthread_join] ++ cs.map Sys.renderer }
    else some st
  match joined with
  | none => none
  | some st =>
    if st.display_open = false then some (sys_fault (st.log Sys.XCloseDisplay))
    else
      let st := { st with display_open := false }.log Sys.XCloseDisplay
      let st := mutex_unlock e st
      some (sys_exit 0 st)

/-- The routine `initialize` of lines 186-203.  The result of `XOpenDisplay`
is stored in `d` without a check. -/
def initialize_proc (e : Env) (daemonize : Int) (st : State) : State :=
  let st := if daemonize ≠ 0 then st.log Sys.daemon else st
  let st := mutex_reportpid e st
  let st := { st with display_open := !e.display_fails }.log Sys.XOpenDisplay
  registered_signals.foldl
    (fun st sig => { st with handlers := st.handlers ++ [sig] }.log (Sys.signal sig)) st

/-- Lines 205-219.  `close_display(0)` does not return, so after a failing
pthread call the routine ends in the state `close_display` leaves (or `none`). -/
def launch_thread (e : Env) (st : State) : Option State :=
  let st := { st with may_run := 1 }
  let st := st.log (Sys.pthread_attr_init e.attr_init_ret)
  if e.attr_init_ret ≠ 0 then close_display e 0 st
  else
    let st := st.log (Sys.pthread_create e.create_ret)
    if e.create_ret ≠ 0 then close_display e 0 st
    else some { st with thread_id := 1, renderer := PC.loop_head }

/-- The test `strstr(v[1], "-d") != NULL` of line 241. -/
def has_daemon_flag (arg : List Char) : Bool :=
  (List.range (arg.length + 1)).any fun i => (arg.drop i).take 2 = ['-', 'd']

/-- Lines 240-257, up to the entry into `event_loop`, which never returns.
`argv` holds `v[0], v[1], ...`; `none` when the process blocks for ever.  When
`launch_thread` ended the process (through `close_display`), `event_loop` is
not entered. -/
def main (e : Env) (argv : List (List Char)) (st : State) : Option State :=
  let st :=
    if argv.length > 1 ∧ has_daemon_flag (argv.getD 1 []) = true then
      { st with daemonize := 1 }
    else st
  let r := mutex_lock e st
  if r.1 = 1 then
    let st := r.2.log (Sys.printf Msg.failed_to_obtain)
    some (sys_exit 1 st)
  else
    let st := initialize_proc e st.daemonize r.2
    match launch_thread e st with
    | none => none
    | some st =>
      if st.exit_status.isSome = true ∨ st.killed = true then some st
      else some { st with in_event_loop := true }

/-- An environment in which every call succeeds; the process identifier is 789. -/
def env_ok (screens : List Screen) : Env :=
  { open_result := some 3, flock_error := false, unlock_error := false, close_error := false,
    write_error := false, pid := 789, attr_init_ret := 0, create_ret := 0,
    display_fails := false, screens := screens }

/-- A running instance in `event_loop` that holds the lock through descriptor
3, with the hotkey down and the renderer in the hold loop of screen 0. -/
def held_state : State :=
  { file := some ['7', '8', '9'], locked := true, holds_lock := true, open_fd := some 3,
    offset := 3, mutex_fd := 3, may_run := 1, show_lines := 1, thread_id := 1, daemonize := 0,
    display_open := true, handlers := registered_signals, renderer := PC.hold 0,
    in_event_loop := true, exit_status := none, killed := false, calls := [] }

/-- Distance of a control point from `return NULL` once `may_run` is 0, on a
display of `len` screens (an upper bound on the steps left, unless the hold
loop spins). -/
def PC.rank (len : Nat) : PC → Nat
  | PC.returned => 0
  | PC.loop_head => 1
  | PC.screen k => 2 * (len - k) + 2
  | PC.hold k => 2 * (len - (k + 1)) + 3
  | PC.check_show => 2 * len + 3

/-- The same running instance with the hotkey up (`show_lines = 0`). -/
def released_state : State := { held_state with show_lines := 0 }

/-- An instance whose `XOpenDisplay` returned NULL: it holds the lock and `d`
is no connection; the renderer is at the top of its loop. -/
def headless_state : State :=
  { released_state with display_open := false, renderer := PC.loop_head }

/-- Calls that go beyond trying to take the lock: a write to or removal of the
lock file, detaching, opening the display, installing a signal handler, or
starting (or joining) the renderer thread. -/
def Sys.beyond_lock : Sys → Bool
  | Sys.write _ _ _ => true
  | Sys.fsync _ => true
  | Sys.unlink => true
  | Sys.daemon => true
  | Sys.getpid _ => true
  | Sys.XOpenDisplay => true
  | Sys.XCloseDisplay => true
  | Sys.signal _ => true
  | Sys.pthread_attr_init _ => true
  | Sys.pthread_create _ => true
  | Sys.pthread_join => true
  | Sys.renderer _ => true
  | _ => false

/-- The state in which `main` calls `mutex_lock`: a fresh process whose
`daemonize` was set from the command line. -/
def State.launched (file : Option (List Char)) (locked : Bool) (daemonize : Int) : State :=
  { State.start file locked with daemonize := daemonize }

/-! ## Keymap bit extraction and the hotkey loop -/

theorem int_bits_two_pow (i : Nat) (hi : i < 8) : int_bits (((1 <<< i : Nat)) : Int) = 2 ^ i := by
  unfold int_bits
  rw [Nat.one_shiftLeft]
  have h : (2:Nat) ^ i < 2 ^ 32 := Nat.pow_lt_pow_right (by norm_num) (by omega)
  have : (((2 ^ i : Nat) : Int) % 2 ^ 32) = ((2 ^ i : Nat) : Int) := by
    apply Int.emod_eq_of_lt
    · positivity
    · exact_mod_cast h
  rw [this]; exact Int.toNat_natCast _

theorem int_bits_testBit (b : Int) (i : Nat) (hi : i < 8) :
    (int_bits b).testBit i = ((b % 256).toNat).testBit i := by
  unfold int_bits
  have h1 : ((b % 2 ^ 32).toNat) % 2 ^ 8 = (b % 256).toNat := by
    have hnn : 0 ≤ b % 2 ^ 32 := Int.emod_nonneg _ (by norm_num)
    have hnn2 : 0 ≤ b % 256 := Int.emod_nonneg _ (by norm_num)
    zify
    rw [Int.toNat_of_nonneg hnn, Int.toNat_of_nonneg hnn2]
    norm_num
  rw [← h1, Nat.testBit_mod_two_pow]
  simp [hi]

theorem int_and_ne_zero_iff (b : Int) (i : Nat) (hi : i < 8) :
    int_and b ((1 <<< i : Nat) : Int) ≠ 0 ↔ ((b % 256).toNat).testBit i = true := by
  unfold int_and
  rw [int_bits_two_pow i hi, Nat.and_two_pow, ← int_bits_testBit b i hi]
  cases h : (int_bits b).testBit i <;> simp

theorem bitmap_value_testBit (m : List Int) (k : Nat) :
    (bitmap_value m).testBit k = ((m.getD (k / 8) 0 % 256).toNat).testBit (k % 8) := by
  induction m generalizing k with
  | nil => simp [bitmap_value]
  | cons b rest ih =>
    have hlt : (b % 256).toNat < 2 ^ 8 := by
      have h1 : 0 ≤ b % 256 := Int.emod_nonneg _ (by norm_num)
      have h2 : b % 256 < 256 := Int.emod_lt_of_pos _ (by norm_num)
      omega
    have hv : bitmap_value (b :: rest) = 2 ^ 8 * bitmap_value rest + (b % 256).toNat := by
      simp [bitmap_value]; omega
    rw [hv, Nat.testBit_mul_pow_two_add _ hlt]
    by_cases hk : k < 8
    · have h0 : k / 8 = 0 := by omega
      have h1 : k % 8 = k := by omega
      simp [hk, h0, h1]
    · obtain ⟨q, hq⟩ : ∃ q, k / 8 = q + 1 := ⟨k / 8 - 1, by omega⟩
      have h1 : (k - 8) / 8 = q := by omega
      have h2 : (k - 8) % 8 = k % 8 := by omega
      rw [if_neg hk, ih (k - 8), h1, h2, hq]
      simp

theorem is_pressed_eq (key_map : List Int) (keycode : Nat)
    (hlen : key_map.length = 32) (hk : keycode < 256) :
    is_pressed key_map keycode = some (keymap_bit key_map keycode) := by
  have hidx : keycode >>> 3 = keycode / 8 := by
    rw [Nat.shiftRight_eq_div_pow]
  have hlt : keycode / 8 < key_map.length := by omega
  unfold is_pressed keymap_bit
  rw [hidx, List.getElem?_eq_getElem hlt, List.getD_eq_getElem _ _ hlt]
  simp only
  have hb : keycode % 8 < 8 := Nat.mod_lt _ (by norm_num)
  by_cases h : ((key_map[keycode / 8] % 256).toNat).testBit (keycode % 8) = true
  · rw [if_pos ((int_and_ne_zero_iff _ _ hb).2 h), if_pos h]
  · rw [if_neg (fun hc => h ((int_and_ne_zero_iff _ _ hb).1 hc)), if_neg h]

theorem keymap_bit_cases (key_map : List Int) (keycode : Nat) :
    keymap_bit key_map keycode = 0 ∨ keymap_bit key_map keycode = 1 := by
  unfold keymap_bit; split <;> simp

theorem update_show_lines_eq (show_lines pressed : Int)
    (hs : show_lines = 0 ∨ show_lines = 1) (hp : pressed = 0 ∨ pressed = 1) :
    update_show_lines show_lines pressed = pressed := by
  rcases hs with rfl | rfl <;> rcases hp with rfl | rfl <;> simp [update_show_lines]

/-- Whatever `int` the flag holds, after a tick it is nonzero exactly when the
key is pressed. -/
theorem update_show_lines_truth (show_lines pressed : Int)
    (hp : pressed = 0 ∨ pressed = 1) :
    (update_show_lines show_lines pressed ≠ 0 ↔ pressed ≠ 0) := by
  by_cases hs : show_lines = 0 <;> rcases hp with rfl | rfl <;> simp [update_show_lines, hs]

theorem event_loop_eq_map (snaps : List Snapshot) (show_lines : Int)
    (hs : show_lines = 0 ∨ show_lines = 1) (hwf : ∀ s ∈ snaps, s.wf) :
    event_loop snaps show_lines
      = some (snaps.map (fun s => keymap_bit s.key_map s.keycode)) := by
  induction snaps generalizing show_lines with
  | nil => rfl
  | cons s rest ih =>
    have hw := hwf s (List.mem_cons_self _ _)
    have hp := is_pressed_eq s.key_map s.keycode hw.1 hw.2.2
    have hb := keymap_bit_cases s.key_map s.keycode
    have hu := update_show_lines_eq show_lines _ hs hb
    have hrest := ih (keymap_bit s.key_map s.keycode) hb
      (fun t ht => hwf t (List.mem_cons_of_mem _ ht))
    simp [event_loop, event_loop_tick, hp, hu, hrest]

theorem flag_prev_cases (show_lines : Int) (snaps : List Snapshot) (i : Nat)
    (hs : show_lines = 0 ∨ show_lines = 1) :
    (show_lines :: snaps.map (fun s => keymap_bit s.key_map s.keycode)).getD i 0 = 0 ∨
    (show_lines :: snaps.map (fun s => keymap_bit s.key_map s.keycode)).getD i 0 = 1 := by
  cases i with
  | zero => simpa using hs
  | succ j =>
    by_cases hj : j < snaps.length
    · have : ((show_lines :: snaps.map (fun s => keymap_bit s.key_map s.keycode)).getD (j + 1) 0)
          = keymap_bit (snaps[j]).key_map (snaps[j]).keycode := by
        simp [List.getD_eq_getElem?_getD, hj]
      rw [this]; exact keymap_bit_cases _ _
    · left
      have hnone : snaps[j]? = none := List.getElem?_eq_none (by omega)
      simp [List.getD_eq_getElem?_getD, hnone]

/-- C10: for every 8-bit keycode and every 32-byte keymap (whatever the value of
each byte, so for signed and for unsigned `char`), the index `keycode >> 3` is
below 32, the read succeeds, and `is_pressed` is 1 when bit `keycode mod 8` of
byte `keycode div 8` is set and 0 when it is clear; that is bit number
`keycode` of the 256-bit bitmap. -/
theorem is_pressed_is_bitmap_bit (key_map : List Int) (keycode : Nat)
    (hlen : key_map.length = 32) (hk : keycode < 256) :
    keycode >>> 3 < 32 ∧
    (∃ byte, key_map[keycode >>> 3]? = some byte ∧ key_map[keycode / 8]? = some byte ∧
      is_pressed key_map keycode
        = some (if ((byte % 256).toNat).testBit (keycode % 8) then 1 else 0)) ∧
    (is_pressed key_map keycode = some 1 ↔ (bitmap_value key_map).testBit keycode = true) ∧
    (is_pressed key_map keycode = some 0 ↔ (bitmap_value key_map).testBit keycode = false) := by
  have hidx : keycode >>> 3 = keycode / 8 := by
    rw [Nat.shiftRight_eq_div_pow]
  have hlt : keycode / 8 < key_map.length := by omega
  have hp := is_pressed_eq key_map keycode hlen hk
  have hbv := bitmap_value_testBit key_map keycode
  refine ⟨by omega, ⟨key_map[keycode / 8], ?_, ?_, ?_⟩, ?_, ?_⟩
  · rw [hidx, List.getElem?_eq_getElem hlt]
  · rw [List.getElem?_eq_getElem hlt]
  · rw [hp]; unfold keymap_bit; rw [List.getD_eq_getElem _ _ hlt]
  · rw [hp, hbv]; unfold keymap_bit; split <;> simp_all
  · rw [hp, hbv]; unfold keymap_bit; split <;> simp_all

/-- Witness of C10: keycode 127 (byte 15, bit 7) on a keymap whose byte 15 is
the signed `char` value -128. -/
theorem is_pressed_is_bitmap_bit_witness :
    (keymap_with 15 (-128)).length = 32 ∧ 127 < 256 ∧
    is_pressed (keymap_with 15 (-128)) 127 = some 1 ∧
    (127 >>> 3 < 32 ∧
    (∃ byte, (keymap_with 15 (-128))[127 >>> 3]? = some byte ∧
      (keymap_with 15 (-128))[127 / 8]? = some byte ∧
      is_pressed (keymap_with 15 (-128)) 127
        = some (if ((byte % 256).toNat).testBit (127 % 8) then 1 else 0)) ∧
    (is_pressed (keymap_with 15 (-128)) 127 = some 1
      ↔ (bitmap_value (keymap_with 15 (-128))).testBit 127 = true) ∧
    (is_pressed (keymap_with 15 (-128)) 127 = some 0
      ↔ (bitmap_value (keymap_with 15 (-128))).testBit 127 = false)) :=
  ⟨by decide, by decide, by decide,
    is_pressed_is_bitmap_bit (keymap_with 15 (-128)) 127 (by decide) (by decide)⟩

/-- C1: from a flag value 0 or 1 and for every finite sequence of well-formed
keyboard snapshots, `event_loop` returns, and the flag after each tick equals
the pressed bit of the designated key in the snapshot of that tick; the flag
changes on a tick exactly when that bit differs from the previous flag value
(to 1 on not-pressed to pressed, to 0 on pressed to not-pressed) and is
unchanged otherwise. -/
theorem event_loop_flag_follows_key (show_lines : Int) (snaps : List Snapshot)
    (h0 : show_lines = 0 ∨ show_lines = 1) (hwf : ∀ s ∈ snaps, s.wf) :
    event_loop snaps show_lines
      = some (snaps.map (fun s => keymap_bit s.key_map s.keycode)) ∧
    ∀ (i : Nat) (hi : i < snaps.length),
      is_pressed (snaps[i]).key_map (snaps[i]).keycode
        = some (keymap_bit (snaps[i]).key_map (snaps[i]).keycode) ∧
      event_loop_tick snaps[i]
          ((show_lines :: snaps.map (fun s => keymap_bit s.key_map s.keycode)).getD i 0)
        = some ((snaps.map (fun s => keymap_bit s.key_map s.keycode)).getD i 0) ∧
      (snaps.map (fun s => keymap_bit s.key_map s.keycode)).getD i 0
        = keymap_bit (snaps[i]).key_map (snaps[i]).keycode ∧
      ((snaps.map (fun s => keymap_bit s.key_map s.keycode)).getD i 0
          ≠ (show_lines :: snaps.map (fun s => keymap_bit s.key_map s.keycode)).getD i 0
        ↔ keymap_bit (snaps[i]).key_map (snaps[i]).keycode
          ≠ (show_lines :: snaps.map (fun s => keymap_bit s.key_map s.keycode)).getD i 0) ∧
      ((show_lines :: snaps.map (fun s => keymap_bit s.key_map s.keycode)).getD i 0 = 0 ∧
          keymap_bit (snaps[i]).key_map (snaps[i]).keycode = 1 →
        (snaps.map (fun s => keymap_bit s.key_map s.keycode)).getD i 0 = 1) ∧
      ((show_lines :: snaps.map (fun s => keymap_bit s.key_map s.keycode)).getD i 0 = 1 ∧
          keymap_bit (snaps[i]).key_map (snaps[i]).keycode = 0 →
        (snaps.map (fun s => keymap_bit s.key_map s.keycode)).getD i 0 = 0) := by
  refine ⟨event_loop_eq_map snaps show_lines h0 hwf, ?_⟩
  intro i hi
  have hw := hwf snaps[i] (List.getElem_mem _)
  have hp := is_pressed_eq (snaps[i]).key_map (snaps[i]).keycode hw.1 hw.2.2
  have hcur : (snaps.map (fun s => keymap_bit s.key_map s.keycode)).getD i 0
      = keymap_bit (snaps[i]).key_map (snaps[i]).keycode := by
    simp [List.getD_eq_getElem?_getD, hi]
  have hprev := flag_prev_cases show_lines snaps i h0
  have hb := keymap_bit_cases (snaps[i]).key_map (snaps[i]).keycode
  refine ⟨hp, ?_, hcur, ?_, ?_, ?_⟩
  · rw [hcur]
    simp only [event_loop_tick, hp]
    rw [update_show_lines_eq _ _ hprev hb]
  · rw [hcur]
  · intro h; rw [hcur]; exact h.2
  · intro h; rw [hcur]; exact h.2

/-- Witness of C1: not-pressed, not-pressed, pressed, pressed, not-pressed from
flag 0 gives the flag values 0, 0, 1, 1, 0. -/
theorem event_loop_flag_follows_key_witness :
    ((0 : Int) = 0 ∨ (0 : Int) = 1) ∧
    (∀ s ∈ [snap_up, snap_up, snap_down, snap_down, snap_up], s.wf) ∧
    event_loop [snap_up, snap_up, snap_down, snap_down, snap_up] 0 = some [0, 0, 1, 1, 0] ∧
    event_loop [snap_up, snap_up, snap_down, snap_down, snap_up] 0
      = some ([snap_up, snap_up, snap_down, snap_down, snap_up].map
          (fun s => keymap_bit s.key_map s.keycode)) :=
  ⟨Or.inl rfl, by decide, by decide,
    (event_loop_flag_follows_key 0 [snap_up, snap_up, snap_down, snap_down, snap_up]
      (Or.inl rfl) (by decide)).1⟩

/-! ## Grid geometry -/

theorem mem_grid_segments (W H x y : Int) (seg : Segment) :
    seg ∈ grid_segments W H x y ↔
      ∃ i j : Nat, i ≤ 8 ∧ j ≤ 8 ∧ (i = 0 ∨ i = 8 ∨ j = 0 ∨ j = 8) ∧
        seg = (((W >>> (3 : Nat)) * (i : Int), (H >>> (3 : Nat)) * (j : Int)), (x, y)) := by
  unfold grid_segments
  simp only [List.mem_flatMap, List.mem_range]
  constructor
  · rintro ⟨i, hi, j, hj, h⟩
    by_cases hb : i = 0 ∨ i = 8 ∨ j = 0 ∨ j = 8
    · rw [if_pos hb] at h
      exact ⟨i, j, by omega, by omega, hb, by simpa using h⟩
    · rw [if_neg hb] at h
      simp at h
  · rintro ⟨i, j, hi, hj, hb, rfl⟩
    exact ⟨i, by omega, j, by omega, by rw [if_pos hb]; simp⟩

theorem mem_spec_segments (W H x y : Int) (seg : Segment) :
    seg ∈ spec_segments W H x y ↔
      ∃ i j : Nat, i ≤ 8 ∧ j ≤ 8 ∧ (i = 0 ∨ i = 8 ∨ j = 0 ∨ j = 8) ∧
        seg = ((((i : Int) * W) / 8, ((j : Int) * H) / 8), (x, y)) := by
  unfold spec_segments
  simp only [List.mem_flatMap, List.mem_range]
  constructor
  · rintro ⟨i, hi, j, hj, h⟩
    by_cases hb : i = 0 ∨ i = 8 ∨ j = 0 ∨ j = 8
    · rw [if_pos hb] at h
      exact ⟨i, j, by omega, by omega, hb, by simpa using h⟩
    · rw [if_neg hb] at h
      simp at h
  · rintro ⟨i, j, hi, hj, hb, rfl⟩
    exact ⟨i, by omega, j, by omega, by rw [if_pos hb]; simp⟩

theorem shift3_mul_of_dvd (W : Int) (i : Nat) (h : 8 ∣ W) :
    (W >>> (3 : Nat)) * (i : Int) = ((i : Int) * W) / 8 := by
  obtain ⟨q, rfl⟩ := h
  rw [Int.shiftRight_eq_div_pow]
  have h2 : ((i : Int) * (8 * q)) / 8 = i * q := by
    rw [show (i : Int) * (8 * q) = 8 * (i * q) by ring]
    exact Int.mul_ediv_cancel_left _ (by norm_num)
  rw [h2]
  have : ((8 * q) / (((2 ^ 3 : Nat)) : Int)) = q := by norm_num
  rw [this]; ring

theorem drawn_segments_segment_calls (segs : List Segment) (rest : List XCall) :
    drawn_segments (segment_calls segs ++ rest) = segs ++ drawn_segments rest := by
  induction segs with
  | nil => simp [segment_calls]
  | cons s tl ih =>
    have : segment_calls (s :: tl) ++ rest
        = XCall.cairo_move_to s.1.1 s.1.2 :: XCall.cairo_line_to s.2.1 s.2.2
            :: (segment_calls tl ++ rest) := by
      simp [segment_calls]
    rw [this, drawn_segments, ih]
    rfl

theorem drawn_segments_paint_calls (scr_no : Nat) (s : Screen) (x y : Int) :
    drawn_segments (paint_calls scr_no s x y) = grid_segments s.width s.height x y := by
  have hpre : ∀ tail : List XCall,
      drawn_segments (XCall.XCreateWindow scr_no s.width s.height :: XCall.XMapWindow scr_no
        :: XCall.cairo_xlib_surface_create scr_no s.width s.height :: XCall.cairo_create
        :: XCall.cairo_set_source_rgb :: XCall.cairo_set_line_width :: tail)
        = drawn_segments tail := by
    intro tail; simp [drawn_segments]
  unfold paint_calls
  simp only [List.cons_append, List.nil_append, List.append_assoc]
  rw [hpre, drawn_segments_segment_calls]
  simp [drawn_segments]

theorem drawn_segments_probe_paint (scr_no : Nat) (s : Screen) (x y : Int) :
    drawn_segments (probe_calls scr_no ++ paint_calls scr_no s x y)
      = grid_segments s.width s.height x y := by
  have hpre : ∀ tail : List XCall,
      drawn_segments (probe_calls scr_no ++ tail) = drawn_segments tail := by
    intro tail; simp [probe_calls, drawn_segments]
  rw [hpre, drawn_segments_paint_calls]

theorem step_paints_grid (disp : List Screen) (k : Nat) (s : Screen) (x y : Int)
    (hk : disp[k]? = some s) (hv : s.visual = true) (hp : s.pointer = some (x, y))
    (mr sl : Int) :
    line_thread_step disp mr sl (PC.screen k)
      = (PC.hold k, probe_calls k ++ paint_calls k s x y) := by
  simp only [line_thread_step, hk, hv, hp]
  simp

theorem step_draws_nothing_elsewhere (disp : List Screen) (mr sl : Int) (pc : PC)
    (hpc : ∀ j, pc ≠ PC.screen j) :
    drawn_segments (line_thread_step disp mr sl pc).2 = [] := by
  cases pc with
  | loop_head => by_cases h : mr = 0 <;> simp [line_thread_step, h, drawn_segments]
  | check_show => by_cases h : sl = 0 <;> simp [line_thread_step, h, drawn_segments]
  | screen j => exact absurd rfl (hpc j)
  | hold j =>
    by_cases h : sl = 0 <;> simp [line_thread_step, h, drawn_segments, teardown_calls]
  | returned => simp [line_thread_step, drawn_segments]

/-- C2, as the code has it: for every display, every screen of it with the
visual found, width `W`, height `H` and pointer answer `(x, y)`, the step of
`line_thread` that paints that screen draws exactly the segments from
`((W>>3)*i, (H>>3)*j)` to `(x, y)` for `i, j` in `0..8` with `i` in `{0,8}` or
`j` in `{0,8}`, and then holds; no other step of the pass (the two tests at the
top, the hold loop, the teardown) draws a segment; these segments are the ones
from `(i*W/8, j*H/8)` when `W` and `H` are multiples of 8. -/
theorem line_thread_draws_border_grid (disp : List Screen) (k : Nat) (s : Screen) (x y : Int)
    (hk : disp[k]? = some s) (hv : s.visual = true) (hp : s.pointer = some (x, y)) :
    (∀ (mr sl : Int) (seg : Segment),
      seg ∈ drawn_segments (line_thread_step disp mr sl (PC.screen k)).2 ↔
        ∃ i j : Nat, i ≤ 8 ∧ j ≤ 8 ∧ (i = 0 ∨ i = 8 ∨ j = 0 ∨ j = 8) ∧
          seg = (((s.width >>> (3 : Nat)) * (i : Int), (s.height >>> (3 : Nat)) * (j : Int)),
                  (x, y))) ∧
    (∀ mr sl : Int, (line_thread_step disp mr sl (PC.screen k)).1 = PC.hold k) ∧
    (∀ (mr sl : Nat → Int) (t : Nat),
      (line_thread disp mr sl t (PC.screen k) 1).2.map drawn_segments
        = [grid_segments s.width s.height x y]) ∧
    (∀ (mr sl : Int) (pc : PC), (∀ j, pc ≠ PC.screen j) →
      drawn_segments (line_thread_step disp mr sl pc).2 = []) ∧
    (8 ∣ s.width → 8 ∣ s.height →
      ∀ (mr sl : Int) (seg : Segment),
        seg ∈ drawn_segments (line_thread_step disp mr sl (PC.screen k)).2 ↔
          seg ∈ spec_segments s.width s.height x y) := by
  have hstep := step_paints_grid disp k s x y hk hv hp
  have hdraw : ∀ mr sl : Int,
      drawn_segments (line_thread_step disp mr sl (PC.screen k)).2
        = grid_segments s.width s.height x y := by
    intro mr sl
    rw [hstep]
    exact drawn_segments_probe_paint k s x y
  refine ⟨?_, ?_, ?_, ?_, ?_⟩
  · intro mr sl seg
    rw [hdraw]
    exact mem_grid_segments _ _ _ _ seg
  · intro mr sl
    rw [hstep]
  · intro mr sl t
    simp only [line_thread, List.map_cons, List.map_nil]
    rw [hdraw]
  · intro mr sl pc hpc
    exact step_draws_nothing_elsewhere disp mr sl pc hpc
  · intro hW hH mr sl seg
    rw [hdraw, mem_grid_segments, mem_spec_segments]
    constructor
    · rintro ⟨i, j, hi, hj, hb, rfl⟩
      exact ⟨i, j, hi, hj, hb, by
        rw [shift3_mul_of_dvd s.width i hW, shift3_mul_of_dvd s.height j hH]⟩
    · rintro ⟨i, j, hi, hj, hb, rfl⟩
      exact ⟨i, j, hi, hj, hb, by
        rw [shift3_mul_of_dvd s.width i hW, shift3_mul_of_dvd s.height j hH]⟩

/-- Witness of C2 as amended, on the display with one 1920 x 1080 screen and
the pointer at (100, 200). -/
theorem line_thread_draws_border_grid_witness :
    one_screen[0]? = some ⟨1920, 1080, true, some (100, 200)⟩ ∧
    (⟨1920, 1080, true, some (100, 200)⟩ : Screen).visual = true ∧
    (⟨1920, 1080, true, some (100, 200)⟩ : Screen).pointer = some (100, 200) ∧
    (8 : Int) ∣ 1920 ∧ (8 : Int) ∣ 1080 ∧
    (∀ (mr sl : Int) (seg : Segment),
      seg ∈ drawn_segments (line_thread_step one_screen mr sl (PC.screen 0)).2 ↔
        seg ∈ spec_segments 1920 1080 100 200) ∧
    (∀ (mr sl : Int) (seg : Segment),
      seg ∈ drawn_segments (line_thread_step one_screen mr sl (PC.screen 0)).2 ↔
        ∃ i j : Nat, i ≤ 8 ∧ j ≤ 8 ∧ (i = 0 ∨ i = 8 ∨ j = 0 ∨ j = 8) ∧
          seg = ((((1920 : Int) >>> (3 : Nat)) * (i : Int),
                  ((1080 : Int) >>> (3 : Nat)) * (j : Int)), (100, 200))) :=
  ⟨rfl, rfl, rfl, by decide, by decide,
    (line_thread_draws_border_grid one_screen 0 ⟨1920, 1080, true, some (100, 200)⟩ 100 200
      rfl rfl rfl).2.2.2.2 (by decide) (by decide),
    (line_thread_draws_border_grid one_screen 0 ⟨1920, 1080, true, some (100, 200)⟩ 100 200
      rfl rfl rfl).1⟩

/-- Counterexample to C2 as stated: on a display whose screen is 10 wide and 16
high with the pointer at (3, 4), the segment from the border point
(8*10/8, 0) = (10, 0) belongs to the stated set and is not among the segments
the painting step of `line_thread` draws; no drawn segment starts right of
x = 8, the code draws from (8, 0). -/
theorem line_thread_grid_counterexample :
    (((10, 0), (3, 4)) : Segment) ∈ spec_segments 10 16 3 4 ∧
    (((10, 0), (3, 4)) : Segment) ∉
      drawn_segments (line_thread_step small_screen 1 1 (PC.screen 0)).2 ∧
    (((8, 0), (3, 4)) : Segment) ∈
      drawn_segments (line_thread_step small_screen 1 1 (PC.screen 0)).2 ∧
    (∀ seg ∈ drawn_segments (line_thread_step small_screen 1 1 (PC.screen 0)).2,
      seg.1.1 ≤ 8 ∧ seg.2 = (3, 4)) ∧
    (((10, 0), (3, 4)) : Segment) ∉
      ((line_thread small_screen (fun _ => 1) (fun _ => 1) 0 PC.loop_head 5).2.map
        drawn_segments).flatten := by
  decide

/-! ## The renderer loop -/

theorem line_thread_add (disp : List Screen) (mr sl : Nat → Int) (t : Nat) (pc : PC)
    (a b : Nat) :
    line_thread disp mr sl t pc (a + b)
      = ((line_thread disp mr sl (t + a) (line_thread disp mr sl t pc a).1 b).1,
         (line_thread disp mr sl t pc a).2
           ++ (line_thread disp mr sl (t + a) (line_thread disp mr sl t pc a).1 b).2) := by
  induction a generalizing t pc with
  | zero => simp [line_thread]
  | succ a ih =>
    have h : a + 1 + b = (a + b) + 1 := by omega
    rw [h]
    simp only [line_thread]
    rw [ih]
    have h2 : t + 1 + a = t + (a + 1) := by omega
    rw [h2]
    simp

theorem line_thread_returned (disp : List Screen) (mr sl : Nat → Int) (t n : Nat) :
    (line_thread disp mr sl t PC.returned n).1 = PC.returned := by
  induction n generalizing t with
  | zero => rfl
  | succ n ih => simp only [line_thread, line_thread_step]; exact ih (t + 1)

theorem line_thread_hold_stuck (disp : List Screen) (mr sl : Nat → Int) (k t n : Nat)
    (h : ∀ i, i < n → sl (t + i) ≠ 0) :
    line_thread disp mr sl t (PC.hold k) n
      = (PC.hold k, List.replicate n [XCall.usleep 1000]) := by
  induction n generalizing t with
  | zero => rfl
  | succ n ih =>
    have h0 : sl t ≠ 0 := by simpa using h 0 (by omega)
    have hr := ih (t + 1) (fun i hi => by
      have := h (i + 1) (by omega)
      rwa [show t + (i + 1) = t + 1 + i by omega] at this)
    simp only [line_thread, line_thread_step, if_pos h0, hr, List.replicate_succ]

theorem step_idle_no_creation (disp : List Screen) (mr sl : Int) (pc : PC)
    (hpc : pc.idle = true) :
    ∀ c ∈ (line_thread_step disp mr sl pc).2, c = XCall.usleep 10000 ∧ sl = 0 := by
  cases pc with
  | loop_head => by_cases h : mr = 0 <;> simp [line_thread_step, h]
  | check_show => by_cases h : sl = 0 <;> simp [line_thread_step, h]
  | screen k => simp [PC.idle] at hpc
  | hold k => simp [PC.idle] at hpc
  | returned => simp [line_thread_step]

theorem step_idle_stays (disp : List Screen) (mr sl : Int) (pc : PC)
    (hpc : pc.idle = true) (hsl : sl = 0) :
    (line_thread_step disp mr sl pc).1.idle = true := by
  cases pc with
  | loop_head => by_cases h : mr = 0 <;> simp [line_thread_step, h, PC.idle]
  | check_show => simp [line_thread_step, hsl, PC.idle]
  | screen k => simp [PC.idle] at hpc
  | hold k => simp [PC.idle] at hpc
  | returned => rfl

theorem line_thread_idle (disp : List Screen) (mr sl : Nat → Int) (t n : Nat) (pc : PC)
    (hpc : pc.idle = true) (hfalse : ∀ i, i < n → sl (t + i) = 0) :
    (line_thread disp mr sl t pc n).1.idle = true ∧
    ∀ cs ∈ (line_thread disp mr sl t pc n).2, ∀ c ∈ cs, c = XCall.usleep 10000 := by
  induction n generalizing t pc with
  | zero => simp [line_thread, hpc]
  | succ n ih =>
    have h0 : sl t = 0 := by simpa using hfalse 0 (by omega)
    have hstep := step_idle_stays disp (mr t) (sl t) pc hpc h0
    have hr := ih (t + 1) _ hstep (fun i hi => by
      have := hfalse (i + 1) (by omega)
      rwa [show t + (i + 1) = t + 1 + i by omega] at this)
    simp only [line_thread]
    refine ⟨hr.1, ?_⟩
    intro cs hcs
    rcases List.mem_cons.1 hcs with rfl | hcs
    · intro c hc; exact (step_idle_no_creation disp (mr t) (sl t) pc hpc c hc).1
    · exact hr.2 cs hcs

theorem line_thread_trace_length (disp : List Screen) (mr sl : Nat → Int) (t n : Nat) (pc : PC) :
    (line_thread disp mr sl t pc n).2.length = n := by
  induction n generalizing t pc with
  | zero => rfl
  | succ n ih => simp [line_thread, ih]

theorem line_thread_getD (disp : List Screen) (mr sl : Nat → Int) (t n i : Nat) (pc : PC)
    (hi : i < n) :
    (line_thread disp mr sl t pc n).2.getD i []
      = (line_thread_step disp (mr (t + i)) (sl (t + i))
          (line_thread disp mr sl t pc i).1).2 := by
  obtain ⟨m, rfl⟩ : ∃ m, n = i + (1 + m) := ⟨n - i - 1, by omega⟩
  rw [line_thread_add]
  simp only
  have hlen := line_thread_trace_length disp mr sl t i pc
  rw [List.getD_eq_getElem?_getD, List.getElem?_append_right (by omega), hlen]
  rw [line_thread_add]
  simp [line_thread]

/-- C7, as the code has it: from a point between passes (the top of the outer
loop), for every number of screens and every schedule of the two flags, as long
as `show_lines` is false the renderer issues nothing but `usleep(10000)`, so no
window-creation call; and every window-creation call in an execution comes
after a moment at which `show_lines` was true. -/
theorem line_thread_idle_no_creation (disp : List Screen) (mr sl : Nat → Int) (t n : Nat)
    (pc : PC) (hpc : pc = PC.loop_head ∨ pc = PC.check_show) :
    ((∀ i, i < n → sl (t + i) = 0) →
      ∀ cs ∈ (line_thread disp mr sl t pc n).2, ∀ c ∈ cs,
        c = XCall.usleep 10000 ∧ c.is_creation = false) ∧
    (∀ i c, i < n → c ∈ (line_thread disp mr sl t pc n).2.getD i [] → c.is_creation = true →
      ∃ j, j < i ∧ sl (t + j) ≠ 0) := by
  have hidle : pc.idle = true := by rcases hpc with rfl | rfl <;> rfl
  constructor
  · intro hfalse cs hcs c hc
    have h := (line_thread_idle disp mr sl t n pc hidle hfalse).2 cs hcs c hc
    subst h; exact ⟨rfl, rfl⟩
  · intro i c hi hc hcre
    by_contra hno
    have hfalse : ∀ j, j < i → sl (t + j) = 0 := by
      intro j hj
      by_contra hne
      exact hno ⟨j, hj, hne⟩
    have hpre := (line_thread_idle disp mr sl t i pc hidle hfalse).1
    rw [line_thread_getD disp mr sl t n i pc hi] at hc
    have := (step_idle_no_creation disp _ _ _ hpre c hc).1
    subst this
    simp [XCall.is_creation] at hcre

/-- Witness of C7 as amended: two screens, the flag false for ever, 50 steps
from the top of the loop. -/
theorem line_thread_idle_no_creation_witness :
    (PC.loop_head = PC.loop_head ∨ PC.loop_head = PC.check_show) ∧
    (∀ i, i < 50 → (fun _ : Nat => (0 : Int)) (0 + i) = 0) ∧
    (∀ cs ∈ (line_thread two_screens (fun _ => 1) (fun _ => 0) 0 PC.loop_head 50).2, ∀ c ∈ cs,
        c = XCall.usleep 10000 ∧ c.is_creation = false) :=
  ⟨Or.inl rfl, fun _ _ => rfl,
    (line_thread_idle_no_creation two_screens (fun _ => 1) (fun _ => 0) 0 50 PC.loop_head
      (Or.inl rfl)).1 (fun _ _ => rfl)⟩

/-- Counterexample to C7 as stated.  One screen: the flag is true only at time
1, when the top of the loop reads it, and the three window-creation calls are
issued at time 2, when it is false.  Two screens: the flag is true up to time 4
and false from time 5 on; the hold on screen 0 ends at time 5 and the overlay
of screen 1 is created at time 6, with the flag false. -/
theorem line_thread_creation_counterexample :
    ((fun t : Nat => if t = 1 then (1 : Int) else 0) 2 = 0 ∧
      XCall.XCreateColormap 0 ∈ (line_thread one_screen (fun _ => 1)
        (fun t => if t = 1 then 1 else 0) 0 PC.loop_head 3).2.getD 2 [] ∧
      XCall.XCreateWindow 0 1920 1080 ∈ (line_thread one_screen (fun _ => 1)
        (fun t => if t = 1 then 1 else 0) 0 PC.loop_head 3).2.getD 2 [] ∧
      XCall.XMapWindow 0 ∈ (line_thread one_screen (fun _ => 1)
        (fun t => if t = 1 then 1 else 0) 0 PC.loop_head 3).2.getD 2 []) ∧
    ((fun t : Nat => if t < 5 then (1 : Int) else 0) 5 = 0 ∧
      (fun t : Nat => if t < 5 then (1 : Int) else 0) 6 = 0 ∧
      (line_thread two_screens (fun _ => 1)
        (fun t => if t < 5 then 1 else 0) 0 PC.loop_head 6).1 = PC.screen 1 ∧
      (line_thread two_screens (fun _ => 1)
        (fun t => if t < 5 then 1 else 0) 0 PC.loop_head 7).2.getD 5 [] = teardown_calls 0 ∧
      XCall.XCreateWindow 1 1280 1024 ∈ (line_thread two_screens (fun _ => 1)
        (fun t => if t < 5 then 1 else 0) 0 PC.loop_head 7).2.getD 6 [] ∧
      XCall.XMapWindow 1 ∈ (line_thread two_screens (fun _ => 1)
        (fun t => if t < 5 then 1 else 0) 0 PC.loop_head 7).2.getD 6 []) := by
  decide

/-! ## Pointer query failure -/

theorem segment_calls_not_overlay (k : Nat) (segs : List Segment) :
    ∀ c ∈ segment_calls segs, c.is_overlay_of k = false := by
  intro c hc
  unfold segment_calls at hc
  rw [List.mem_flatMap] at hc
  obtain ⟨s, _, hs⟩ := hc
  simp at hs
  rcases hs with rfl | rfl <;> rfl

theorem paint_calls_not_overlay (j k : Nat) (hjk : j ≠ k) (s : Screen) (x y : Int) :
    ∀ c ∈ paint_calls j s x y, c.is_overlay_of k = false := by
  intro c hc
  unfold paint_calls at hc
  rw [List.mem_append, List.mem_append] at hc
  rcases hc with (hc | hc) | hc
  · simp at hc
    rcases hc with rfl | rfl | rfl | rfl | rfl | rfl <;> simp [XCall.is_overlay_of, hjk]
  · exact segment_calls_not_overlay k _ c hc
  · simp at hc
    rcases hc with rfl | rfl <;> rfl

theorem probe_calls_not_overlay (j k : Nat) :
    ∀ c ∈ probe_calls j, c.is_overlay_of k = false := by
  intro c hc
  simp [probe_calls] at hc
  rcases hc with rfl | rfl | rfl | rfl | rfl | rfl <;> rfl

theorem step_skips_blind_screen (disp : List Screen) (k : Nat) (s : Screen)
    (hk : disp[k]? = some s) (hv : s.visual = true) (hp : s.pointer = none)
    (mr sl : Int) (pc : PC) (hpc : pc ≠ PC.hold k) :
    (line_thread_step disp mr sl pc).1 ≠ PC.hold k ∧
    ∀ c ∈ (line_thread_step disp mr sl pc).2, c.is_overlay_of k = false := by
  cases pc with
  | loop_head => by_cases h : mr = 0 <;> simp [line_thread_step, h]
  | check_show => by_cases h : sl = 0 <;> simp [line_thread_step, h, XCall.is_overlay_of]
  | returned => simp [line_thread_step]
  | hold j =>
    have hjk : j ≠ k := fun h => hpc (by rw [h])
    by_cases h : sl = 0
    · simp [line_thread_step, h, teardown_calls, XCall.is_overlay_of, hjk]
    · simp [line_thread_step, h, XCall.is_overlay_of, hjk]
  | screen j =>
    by_cases hjk : j = k
    · subst hjk
      simp only [line_thread_step, hk, hv, hp]
      exact ⟨by simp, probe_calls_not_overlay j j⟩
    · simp only [line_thread_step]
      cases hd : disp[j]? with
      | none => simp [XCall.is_overlay_of]
      | some sj =>
        by_cases hvj : sj.visual = true
        · cases hpj : sj.pointer with
          | none =>
            simp only [hvj, not_true_eq_false, if_false, hpj]
            exact ⟨by simp, probe_calls_not_overlay j k⟩
          | some p =>
            obtain ⟨x, y⟩ := p
            simp only [hvj, not_true_eq_false, if_false, hpj]
            refine ⟨by simp [hjk], ?_⟩
            intro c hc
            rcases List.mem_append.1 hc with hc | hc
            · exact probe_calls_not_overlay j k c hc
            · exact paint_calls_not_overlay j k hjk sj x y c hc
        · simp [hvj, XCall.is_overlay_of]

theorem line_thread_skips_blind_screen (disp : List Screen) (k : Nat) (s : Screen)
    (hk : disp[k]? = some s) (hv : s.visual = true) (hp : s.pointer = none)
    (mr sl : Nat → Int) (t n : Nat) (pc : PC) (hpc : pc ≠ PC.hold k) :
    (line_thread disp mr sl t pc n).1 ≠ PC.hold k ∧
    ∀ cs ∈ (line_thread disp mr sl t pc n).2, ∀ c ∈ cs, c.is_overlay_of k = false := by
  induction n generalizing t pc with
  | zero => simp [line_thread, hpc]
  | succ n ih =>
    have hstep := step_skips_blind_screen disp k s hk hv hp (mr t) (sl t) pc hpc
    have hr := ih (t + 1) _ hstep.1
    simp only [line_thread]
    refine ⟨hr.1, ?_⟩
    intro cs hcs
    rcases List.mem_cons.1 hcs with rfl | hcs
    · exact hstep.2
    · exact hr.2 cs hcs

/-- C8, as the code has it: on every screen of a pass on which the 32-bit
TrueColor visual is found and `XQueryPointer` fails, `line_thread` allocates
the colormap, then goes on to the next screen at once: it creates and maps no
overlay for that screen, draws no segment, does not sleep in the hold loop,
and in no execution that does not start inside the hold of that screen is a
call on an overlay of that screen ever issued or its hold loop reached. -/
theorem line_thread_pointer_failure_skips (disp : List Screen) (k : Nat) (s : Screen)
    (hk : disp[k]? = some s) (hv : s.visual = true) (hp : s.pointer = none) :
    (∀ mr sl : Int,
      line_thread_step disp mr sl (PC.screen k) = (PC.screen (k + 1), probe_calls k)) ∧
    XCall.XCreateColormap k ∈ probe_calls k ∧
    drawn_segments (probe_calls k) = [] ∧
    (∀ c ∈ probe_calls k, c.is_overlay_of k = false ∧ ∀ usec, c ≠ XCall.usleep usec) ∧
    (∀ (mr sl : Nat → Int) (t n : Nat) (pc : PC), pc ≠ PC.hold k →
      (line_thread disp mr sl t pc n).1 ≠ PC.hold k ∧
      ∀ cs ∈ (line_thread disp mr sl t pc n).2, ∀ c ∈ cs, c.is_overlay_of k = false) := by
  refine ⟨?_, by simp [probe_calls], by simp [probe_calls, drawn_segments], ?_, ?_⟩
  · intro mr sl
    simp only [line_thread_step, hk, hv, hp]
    simp
  · intro c hc
    refine ⟨probe_calls_not_overlay k k c hc, ?_⟩
    simp [probe_calls] at hc
    rcases hc with rfl | rfl | rfl | rfl | rfl | rfl <;> simp
  · intro mr sl t n pc hpc
    exact line_thread_skips_blind_screen disp k s hk hv hp mr sl t n pc hpc

/-- Witness of C8 as amended, on the display whose only screen fails the
pointer query. -/
theorem line_thread_pointer_failure_skips_witness :
    blind_screen[0]? = some ⟨1920, 1080, true, none⟩ ∧
    (⟨1920, 1080, true, none⟩ : Screen).visual = true ∧
    (⟨1920, 1080, true, none⟩ : Screen).pointer = none ∧
    (∀ mr sl : Int,
      line_thread_step blind_screen mr sl (PC.screen 0) = (PC.screen (0 + 1), probe_calls 0)) :=
  ⟨rfl, rfl, rfl, (line_thread_pointer_failure_skips blind_screen 0 ⟨1920, 1080, true, none⟩
    rfl rfl rfl).1⟩

/-- Counterexample to C8 as stated: on the display whose only screen has the
visual and fails `XQueryPointer`, with both flags true, the pass issues the
six calls up to `XQueryPointer` for screen 0 and leaves the `for` loop; no
`XCreateWindow` or `XMapWindow` is issued and the hold loop is not entered. -/
theorem line_thread_pointer_failure_counterexample :
    line_thread blind_screen (fun _ => 1) (fun _ => 1) 0 PC.loop_head 4
      = (PC.loop_head, [[], [], probe_calls 0, [XCall.XScreenCount]]) ∧
    line_thread_step blind_screen 1 1 (PC.screen 0) = (PC.screen 1, probe_calls 0) ∧
    XCall.XCreateWindow 0 1920 1080 ∉ probe_calls 0 ∧
    XCall.XMapWindow 0 ∉ probe_calls 0 := by
  decide

/-! ## Renderer exit after `may_run = 0` -/

theorem step_rank_decreases (disp : List Screen) (v : Int) (pc : PC)
    (hret : pc ≠ PC.returned) (hstuck : ∀ k, pc = PC.hold k → v = 0) :
    (line_thread_step disp 0 v pc).1.rank disp.length < pc.rank disp.length := by
  cases pc with
  | returned => exact absurd rfl hret
  | loop_head => simp [line_thread_step, PC.rank]
  | check_show =>
    by_cases h : v = 0 <;> simp [line_thread_step, h, PC.rank]
  | hold k =>
    have hv := hstuck k rfl
    simp [line_thread_step, hv, PC.rank]
  | screen k =>
    simp only [line_thread_step]
    cases hd : disp[k]? with
    | none => simp [PC.rank]
    | some s =>
      have hlt : k < disp.length := by
        by_contra hge
        rw [List.getElem?_eq_none (by omega)] at hd
        exact Option.noConfusion hd
      by_cases hvis : s.visual = true
      · cases hp : s.pointer with
        | none => simp only [hvis, not_true_eq_false, if_false, hp, PC.rank]; omega
        | some p =>
          obtain ⟨x, y⟩ := p
          simp only [hvis, not_true_eq_false, if_false, hp, PC.rank]; omega
      · have hf : s.visual = false := by simpa using hvis
        simp only [hf, Bool.false_eq_true, not_false_eq_true, if_true, PC.rank]; omega

theorem frozen_reaches (disp : List Screen) (v : Int) (n t : Nat) (pc : PC)
    (hrank : pc.rank disp.length ≤ n) :
    (line_thread disp (fun _ => 0) (fun _ => v) t pc n).1 = PC.returned ∨
    (v ≠ 0 ∧ ∃ k, (line_thread disp (fun _ => 0) (fun _ => v) t pc n).1 = PC.hold k) := by
  induction n generalizing t pc with
  | zero =>
    left
    cases pc <;> simp [PC.rank] at hrank
    rfl
  | succ n ih =>
    by_cases hret : pc = PC.returned
    · left; subst hret; exact line_thread_returned _ _ _ _ _
    · by_cases hstuck : ∀ k, pc = PC.hold k → v = 0
      · have hdec := step_rank_decreases disp v pc hret hstuck
        simp only [line_thread]
        exact ih (t + 1) _ (by omega)
      · push_neg at hstuck
        obtain ⟨k, rfl, hv⟩ := hstuck
        right
        refine ⟨hv, k, ?_⟩
        rw [line_thread_hold_stuck disp _ _ k t (n + 1) (fun _ _ => hv)]

theorem rank_lt_join_fuel (disp : List Screen) (pc : PC) :
    pc.rank disp.length < join_fuel disp := by
  unfold join_fuel
  cases pc <;> simp [PC.rank] <;> omega

/-- The fuel of `renderer_finish` is enough: when it answers `none`, the
renderer with `may_run = 0` and `show_lines` frozen returns after no number of
steps. -/
theorem renderer_finish_none_never (disp : List Screen) (v : Int) (pc : PC)
    (h : renderer_finish disp v pc = none) (n : Nat) :
    (line_thread disp (fun _ => 0) (fun _ => v) 0 pc n).1 ≠ PC.returned := by
  unfold renderer_finish at h
  simp only at h
  have hne : (line_thread disp (fun _ => 0) (fun _ => v) 0 pc (join_fuel disp)).1
      ≠ PC.returned := by
    intro hc; rw [if_pos hc] at h; exact Option.noConfusion h
  rcases frozen_reaches disp v (join_fuel disp) 0 pc
      (Nat.le_of_lt (rank_lt_join_fuel disp pc)) with hr | ⟨hv, k, hk⟩
  · exact absurd hr hne
  · intro hn
    rcases Nat.le_total n (join_fuel disp) with hle | hle
    · obtain ⟨m, hm⟩ : ∃ m, join_fuel disp = n + m := ⟨join_fuel disp - n, by omega⟩
      rw [hm, line_thread_add] at hne
      simp only [hn] at hne
      exact hne (line_thread_returned _ _ _ _ _)
    · obtain ⟨m, hm⟩ : ∃ m, n = join_fuel disp + m := ⟨n - join_fuel disp, by omega⟩
      rw [hm, line_thread_add] at hn
      simp only [hk] at hn
      rw [line_thread_hold_stuck disp _ _ k _ m (fun _ _ => hv)] at hn
      exact PC.noConfusion hn

/-- When `renderer_finish` answers `some`, the renderer has returned within
`join_fuel` steps and the answer is what it issued on the way. -/
theorem renderer_finish_some (disp : List Screen) (v : Int) (pc : PC) (cs : List XCall)
    (h : renderer_finish disp v pc = some cs) :
    (line_thread disp (fun _ => 0) (fun _ => v) 0 pc (join_fuel disp)).1 = PC.returned ∧
    cs = (line_thread disp (fun _ => 0) (fun _ => v) 0 pc (join_fuel disp)).2.flatten := by
  unfold renderer_finish at h
  simp only at h
  by_cases hc : (line_thread disp (fun _ => 0) (fun _ => v) 0 pc (join_fuel disp)).1
      = PC.returned
  · rw [if_pos hc] at h
    exact ⟨hc, (Option.some.inj h).symm⟩
  · rw [if_neg hc] at h; exact Option.noConfusion h

/-- With `show_lines` false the renderer always returns once `may_run` is 0. -/
theorem renderer_finish_of_hidden (disp : List Screen) (pc : PC) :
    ∃ cs, renderer_finish disp 0 pc = some cs := by
  rcases frozen_reaches disp 0 (join_fuel disp) 0 pc
      (Nat.le_of_lt (rank_lt_join_fuel disp pc)) with hr | ⟨hv, _⟩
  · unfold renderer_finish
    simp only [hr, if_true]
    exact ⟨_, rfl⟩
  · exact absurd rfl hv

/-- C9 at its failing input: in the hold loop with `show_lines` staying true the
renderer never returns, whatever `may_run` is; on the one-screen display, with
`may_run` cleared at time 3 when the renderer has just entered the hold of
screen 0, the renderer is still in that hold after every number of further
steps, `pthread_join` never returns and `close_display` never ends. -/
theorem line_thread_hold_never_returns :
    (∀ (disp : List Screen) (mr : Nat → Int) (k t n : Nat),
      line_thread disp mr (fun _ => 1) t (PC.hold k) n
        = (PC.hold k, List.replicate n [XCall.usleep 1000])) ∧
    (∀ n : Nat,
      (line_thread one_screen (fun t => if t < 3 then 1 else 0) (fun _ => 1) 0
        PC.loop_head (3 + n)).1 = PC.hold 0) ∧
    (∀ n : Nat,
      (line_thread one_screen (fun _ => 0) (fun _ => 1) 0 PC.check_show n).1 ≠ PC.returned) ∧
    renderer_finish one_screen 1 (PC.hold 0) = none ∧
    close_display (env_ok one_screen) SIGTERM held_state = none := by
  have hstuck : ∀ (disp : List Screen) (mr : Nat → Int) (k t n : Nat),
      line_thread disp mr (fun _ => 1) t (PC.hold k) n
        = (PC.hold k, List.replicate n [XCall.usleep 1000]) :=
    fun disp mr k t n => line_thread_hold_stuck disp mr _ k t n (fun _ _ => by decide)
  refine ⟨hstuck, ?_, ?_, by decide, by decide⟩
  · intro n
    rw [line_thread_add]
    have h3 : (line_thread one_screen (fun t => if t < 3 then 1 else 0) (fun _ => 1) 0
        PC.loop_head 3).1 = PC.hold 0 := by decide
    simp only [h3, hstuck]
  · exact renderer_finish_none_never one_screen 1 PC.check_show (by decide)

/-! ## The instance lock -/

theorem natCast_ne_neg_one (fd : Nat) : ((fd : Nat) : Int) ≠ -1 := by omega

theorem mutex_lock_open_fails (e : Env) (file : Option (List Char)) (locked : Bool) (d : Int)
    (h : e.open_result = none) :
    mutex_lock e (State.launched file locked d)
      = (1, { State.launched file locked d with
                calls := [Sys.sys_open (-1), Sys.printf Msg.failed_to_open] }) := by
  simp [mutex_lock, sys_open, h, State.log, State.launched, State.start]

theorem mutex_lock_flock_fails (e : Env) (file : Option (List Char)) (locked : Bool) (d : Int)
    (fd : Nat) (h : e.open_result = some fd) (hf : locked = true ∨ e.flock_error = true) :
    mutex_lock e (State.launched file locked d)
      = (1, { State.launched file locked d with
                file := some (file.getD []),
                calls := [Sys.sys_open fd, Sys.flock fd FlockOp.LOCK_EX_NB (-1),
                  Sys.printf Msg.failed_to_lock,
                  Sys.close fd (if e.close_error = true then -1 else 0)] }) := by
  have hfd := natCast_ne_neg_one fd
  have hcond : locked = true ∨ e.flock_error = true := hf
  by_cases hc : e.close_error = true <;>
    rcases hf with hf | hf <;>
      simp [mutex_lock, sys_open, sys_flock_ex, sys_close, release_fd, h, State.log,
        State.launched, State.start, hfd, hf, hc]

theorem mutex_lock_succeeds (e : Env) (file : Option (List Char)) (d : Int)
    (fd : Nat) (h : e.open_result = some fd) (hf : e.flock_error = false) :
    mutex_lock e (State.launched file false d)
      = (0, { State.launched file false d with
                file := some (file.getD []), open_fd := some (fd : Int), mutex_fd := fd,
                locked := true, holds_lock := true,
                calls := [Sys.sys_open fd, Sys.flock fd FlockOp.LOCK_EX_NB 0] }) := by
  have hfd := natCast_ne_neg_one fd
  simp [mutex_lock, sys_open, sys_flock_ex, h, State.log, State.launched, State.start, hfd, hf]

theorem main_launched (e : Env) (argv : List (List Char)) (file : Option (List Char))
    (locked : Bool) :
    ∃ d : Int, main e argv (State.start file locked) =
      (if (mutex_lock e (State.launched file locked d)).1 = 1 then
        some (sys_exit 1
          ((mutex_lock e (State.launched file locked d)).2.log (Sys.printf Msg.failed_to_obtain)))
      else
        match launch_thread e
          (initialize_proc e d (mutex_lock e (State.launched file locked d)).2) with
        | none => none
        | some st =>
          if st.exit_status.isSome = true ∨ st.killed = true then some st
          else some { st with in_event_loop := true }) := by
  by_cases hd : (argv.length > 1 ∧ has_daemon_flag (argv.getD 1 []) = true)
  · refine ⟨1, ?_⟩
    unfold main
    simp only [if_pos hd]
    rfl
  · refine ⟨0, ?_⟩
    unfold main
    simp only [if_neg hd]
    rfl

theorem mutex_lock_ret_launched (e : Env) (file : Option (List Char)) (locked : Bool) (d : Int) :
    (mutex_lock e (State.launched file locked d)).1
      = (mutex_lock e (State.start file locked)).1 := by
  cases ho : e.open_result with
  | none =>
    rw [mutex_lock_open_fails e file locked d ho]
    have := mutex_lock_open_fails e file locked 0 ho
    rw [show State.launched file locked 0 = State.start file locked from rfl] at this
    rw [this]
  | some fd =>
    by_cases hf : locked = true ∨ e.flock_error = true
    · rw [mutex_lock_flock_fails e file locked d fd ho hf]
      have := mutex_lock_flock_fails e file locked 0 fd ho hf
      rw [show State.launched file locked 0 = State.start file locked from rfl] at this
      rw [this]
    · push_neg at hf
      have hl : locked = false := by simpa using hf.1
      have hfe : e.flock_error = false := by simpa using hf.2
      subst hl
      rw [mutex_lock_succeeds e file d fd ho hfe]
      have := mutex_lock_succeeds e file 0 fd ho hfe
      rw [show State.launched file false 0 = State.start file false from rfl] at this
      rw [this]

/-- C3: started on any lock file and lock state, `mutex_lock` returns 1 exactly
when `open` fails or the non-blocking exclusive `flock` fails (the lock is held
elsewhere, or an error of its own), and 0 otherwise; whenever it returns 1,
`main` ends with exit status 1, `mutex_fd` is -1 and no descriptor is left
open, the instance has issued no write, unlink, display, signal or thread
call, and the content of an existing lock file and the lock of its holder are
as before. -/
theorem mutex_lock_failure_exits (e : Env) (argv : List (List Char))
    (file : Option (List Char)) (locked : Bool) :
    ((mutex_lock e (State.start file locked)).1 = 1 ↔
      (e.open_result = none ∨ locked = true ∨ e.flock_error = true)) ∧
    ((mutex_lock e (State.start file locked)).1 = 1 ↔
      (Sys.sys_open (-1) ∈ (mutex_lock e (State.start file locked)).2.calls ∨
        ∃ fd ret, ret < 0 ∧
          Sys.flock fd FlockOp.LOCK_EX_NB ret ∈ (mutex_lock e (State.start file locked)).2.calls)) ∧
    ((mutex_lock e (State.start file locked)).1 ≠ 1 →
      (mutex_lock e (State.start file locked)).1 = 0) ∧
    ((mutex_lock e (State.start file locked)).1 = 1 →
      (mutex_lock e (State.start file locked)).2.mutex_fd = -1 ∧
      ∃ st, main e argv (State.start file locked) = some st ∧
        st.exit_status = some 1 ∧ st.mutex_fd = -1 ∧ st.open_fd = none ∧
        st.holds_lock = false ∧ st.locked = locked ∧
        (∀ content, file = some content → st.file = some content) ∧
        st.display_open = false ∧ st.handlers = [] ∧ st.thread_id = 0 ∧ st.may_run = 0 ∧
        st.in_event_loop = false ∧
        (∀ c ∈ st.calls, c.beyond_lock = false)) := by
  obtain ⟨d, hmain⟩ := main_launched e argv file locked
  have hret := mutex_lock_ret_launched e file locked d
  have hstart : State.launched file locked 0 = State.start file locked := rfl
  have hfdne := natCast_ne_neg_one
  cases ho : e.open_result with
  | none =>
    have h0 := mutex_lock_open_fails e file locked 0 ho
    have hd := mutex_lock_open_fails e file locked d ho
    rw [hstart] at h0
    rw [hmain, hd, h0]
    simp [sys_exit, release_fd, State.log, State.launched, State.start, Sys.beyond_lock]
  | some fd =>
    by_cases hf : locked = true ∨ e.flock_error = true
    · have h0 := mutex_lock_flock_fails e file locked 0 fd ho hf
      have hd := mutex_lock_flock_fails e file locked d fd ho hf
      rw [hstart] at h0
      rw [hmain, hd, h0]
      simp only [State.launched, State.start]
      refine ⟨by simp [hf], ?_, by simp, ?_⟩
      · simp
      · intro _
        simp [sys_exit, release_fd, State.log, Sys.beyond_lock]
        intro content hc
        simp [hc]
    · have hf2 := hf
      push_neg at hf2
      have hl : locked = false := by simpa using hf2.1
      have hfe : e.flock_error = false := by simpa using hf2.2
      subst hl
      have h0 := mutex_lock_succeeds e file 0 fd ho hfe
      rw [hstart] at h0
      rw [h0]
      simp [hfe, State.launched, State.start, hfdne]

/-- C4 at its failing input: the lock file still holds "123456" from an earlier
instance and the new instance has process identifier 789.  `mutex_lock`
succeeds, the write of the three bytes and the `fsync` succeed, and the lock
file then holds "789456", which is not the decimal string of 789; the same
holds at the end of start-up in `main`. -/
theorem mutex_reportpid_stale_content :
    (mutex_lock (env_ok []) (State.start (some ['1', '2', '3', '4', '5', '6']) false)).1 = 0 ∧
    fmt_li 789 = ['7', '8', '9'] ∧
    Sys.write 3 ['7', '8', '9'] 3 ∈
      (mutex_reportpid (env_ok [])
        (mutex_lock (env_ok []) (State.start (some ['1', '2', '3', '4', '5', '6']) false)).2).calls ∧
    (mutex_reportpid (env_ok [])
        (mutex_lock (env_ok []) (State.start (some ['1', '2', '3', '4', '5', '6']) false)).2).file
      = some ['7', '8', '9', '4', '5', '6'] ∧
    (mutex_reportpid (env_ok [])
        (mutex_lock (env_ok []) (State.start (some ['1', '2', '3', '4', '5', '6']) false)).2).file
      ≠ some (fmt_li 789) ∧
    (main (env_ok []) [] (State.start (some ['1', '2', '3', '4', '5', '6']) false)).map
        (fun st => (st.in_event_loop, st.file))
      = some (true, some ['7', '8', '9', '4', '5', '6']) := by
  decide

/-- C6 at its failing input: an instance that holds the lock through descriptor
3, not detached.  The first `mutex_unlock` unlocks, closes and unlinks, and
leaves `mutex_fd = 3`; the second call is no no-op: it issues `flock(3, LOCK_UN)`
on the closed descriptor, which fails, and prints "unlock failed". -/
theorem mutex_unlock_twice_differs :
    (mutex_unlock (env_ok []) held_state).calls
      = [Sys.flock 3 FlockOp.LOCK_UN 0, Sys.close 3 0, Sys.unlink] ∧
    (mutex_unlock (env_ok []) held_state).file = none ∧
    (mutex_unlock (env_ok []) held_state).open_fd = none ∧
    (mutex_unlock (env_ok []) held_state).holds_lock = false ∧
    (mutex_unlock (env_ok []) held_state).mutex_fd = 3 ∧
    (mutex_unlock (env_ok []) (mutex_unlock (env_ok []) held_state)).calls
      = [Sys.flock 3 FlockOp.LOCK_UN 0, Sys.close 3 0, Sys.unlink,
         Sys.flock 3 FlockOp.LOCK_UN (-1), Sys.printf Msg.unlock_failed] ∧
    mutex_unlock (env_ok []) (mutex_unlock (env_ok []) held_state)
      ≠ mutex_unlock (env_ok []) held_state := by
  decide

/-- Counterexample to C5 as stated: the instance holds the lock, the display is
open, the hotkey is up, SIGTERM arrives and `close` reports an error (or
`flock(LOCK_UN)` does).  `close_display` ends with exit status 0 and has not
unlinked the lock file, which still exists with its content. -/
theorem close_display_counterexample :
    released_state.holds_lock = true ∧ released_state.display_open = true ∧
    SIGTERM ∈ registered_signals ∧
    (close_display { env_ok one_screen with close_error := true } SIGTERM released_state).map
        (fun st => (st.exit_status, st.file, decide (Sys.unlink ∈ st.calls)))
      = some (some 0, some ['7', '8', '9'], false) ∧
    (close_display { env_ok one_screen with unlock_error := true } SIGTERM released_state).map
        (fun st => (st.exit_status, st.file, decide (Sys.unlink ∈ st.calls)))
      = some (some 0, some ['7', '8', '9'], false) := by
  decide

/-- When `XOpenDisplay` had failed, `close_display` faults in `XCloseDisplay`:
the process is terminated without `exit(0)`, `mutex_unlock` is not reached and
the lock file stays; `initialize` leaves such a state when the display cannot
be opened. -/
theorem close_display_without_display :
    (close_display (env_ok []) SIGSEGV headless_state).map
        (fun st => (st.killed, st.exit_status, st.file, decide (Sys.unlink ∈ st.calls)))
      = some (true, none, some ['7', '8', '9'], false) ∧
    (main { env_ok [] with display_fails := true } [] (State.start none false)).map
        (fun st => (st.holds_lock, st.display_open, st.in_event_loop))
      = some (true, false, true) := by
  decide

theorem mutex_unlock_releases (e : Env) (st : State) (hfd : st.mutex_fd ≠ -1)
    (hopen : st.open_fd = some st.mutex_fd) (hholds : st.holds_lock = true)
    (hun : e.unlock_error = false) (hcl : e.close_error = false) :
    mutex_unlock e st
      = { st with file := none, locked := false, holds_lock := false, open_fd := none,
                  calls := st.calls ++ [Sys.flock st.mutex_fd FlockOp.LOCK_UN 0,
                    Sys.close st.mutex_fd 0, Sys.unlink] } := by
  simp [mutex_unlock, sys_flock_un, sys_close, sys_unlink, release_fd, State.log, hfd, hopen,
    hholds, hun, hcl]

/-- C5, as the code has it: for every signal number (so for the five registered
ones) and every state in which the process holds the lock through `mutex_fd`
and `d` is an open display connection, when `pthread_join` returns (the
renderer was not started, or it returns) and `flock(LOCK_UN)` and `close`
succeed, `close_display` ends with the lock released, the descriptor closed,
the lock file removed and exit status 0, without a fault, and a following
`mutex_lock` of a new instance whose `open` and `flock` meet no error
returns 0. -/
theorem close_display_releases_lock (e : Env) (sig : Int) (st : State)
    (hfd : st.mutex_fd ≠ -1) (hopen : st.open_fd = some st.mutex_fd)
    (hholds : st.holds_lock = true) (hdisp : st.display_open = true)
    (hjoin : st.thread_id = 0 ∨
      ∃ cs, renderer_finish e.screens st.show_lines st.renderer = some cs)
    (hun : e.unlock_error = false) (hcl : e.close_error = false) :
    ∃ st', close_display e sig st = some st' ∧
      st'.exit_status = some 0 ∧ st'.locked = false ∧ st'.holds_lock = false ∧
      st'.open_fd = none ∧ st'.file = none ∧ st'.may_run = 0 ∧ st'.display_open = false ∧
      st'.killed = st.killed ∧
      Sys.flock st.mutex_fd FlockOp.LOCK_UN 0 ∈ st'.calls ∧
      Sys.close st.mutex_fd 0 ∈ st'.calls ∧ Sys.unlink ∈ st'.calls ∧
      st'.calls.getLast? = some (Sys.exit 0) ∧
      ∀ (e2 : Env) (fd : Nat), e2.open_result = some fd → e2.flock_error = false →
        (mutex_lock e2 (State.start st'.file st'.locked)).1 = 0 := by
  have hnew : ∀ (e2 : Env) (fd : Nat), e2.open_result = some fd → e2.flock_error = false →
      (mutex_lock e2 (State.start none false)).1 = 0 := by
    intro e2 fd ho hf
    have h := mutex_lock_succeeds e2 none 0 fd ho hf
    rw [show State.launched none false 0 = State.start none false from rfl] at h
    rw [h]
  have hfinish : ∀ s : State, s.mutex_fd = st.mutex_fd → s.open_fd = st.open_fd →
      s.holds_lock = true → s.may_run = 0 → s.display_open = false →
      s.killed = st.killed →
      ∃ st', some (sys_exit 0 (mutex_unlock e s)) = some st' ∧
        st'.exit_status = some 0 ∧ st'.locked = false ∧ st'.holds_lock = false ∧
        st'.open_fd = none ∧ st'.file = none ∧ st'.may_run = 0 ∧
        st'.display_open = false ∧ st'.killed = st.killed ∧
        Sys.flock st.mutex_fd FlockOp.LOCK_UN 0 ∈ st'.calls ∧
        Sys.close st.mutex_fd 0 ∈ st'.calls ∧ Sys.unlink ∈ st'.calls ∧
        st'.calls.getLast? = some (Sys.exit 0) ∧
        ∀ (e2 : Env) (fd : Nat), e2.open_result = some fd → e2.flock_error = false →
          (mutex_lock e2 (State.start st'.file st'.locked)).1 = 0 := by
    intro s h1 h2 h3 h4 h5 h6
    refine ⟨_, rfl, ?_⟩
    rw [mutex_unlock_releases e s (by rw [h1]; exact hfd) (by rw [h1, h2]; exact hopen) h3
      hun hcl]
    simp [sys_exit, release_fd, State.log, h1, h4, h5, h6]
    exact hnew
  unfold close_display
  by_cases hd : st.daemonize = 0
  · by_cases ht : st.thread_id = 0
    · simp only [hd, ht, ne_eq, not_true_eq_false, not_false_eq_true, if_true, if_false,
        State.log, hdisp, Bool.true_eq_false]
      apply hfinish
      · rfl
      · rfl
      · exact hholds
      · rfl
      · rfl
      · rfl
    · rcases hjoin with h0 | ⟨cs, hcs⟩
      · exact absurd h0 ht
      · simp only [hd, ht, ne_eq, not_true_eq_false, not_false_eq_true, if_true, if_false,
          State.log, hcs, hdisp, Bool.true_eq_false]
        apply hfinish
        · rfl
        · rfl
        · exact hholds
        · rfl
        · rfl
        · rfl
  · by_cases ht : st.thread_id = 0
    · simp only [hd, ht, ne_eq, not_true_eq_false, not_false_eq_true, if_true, if_false,
        State.log, hdisp, Bool.true_eq_false]
      apply hfinish
      · rfl
      · rfl
      · exact hholds
      · rfl
      · rfl
      · rfl
    · rcases hjoin with h0 | ⟨cs, hcs⟩
      · exact absurd h0 ht
      · simp only [hd, ht, ne_eq, not_true_eq_false, not_false_eq_true, if_true, if_false,
          State.log, hcs, hdisp, Bool.true_eq_false]
        apply hfinish
        · rfl
        · rfl
        · exact hholds
        · rfl
        · rfl
        · rfl

/-- Witness of C5 as amended: SIGTERM reaches the running instance while the
hotkey is up; every call succeeds. -/
theorem close_display_releases_lock_witness :
    SIGTERM ∈ registered_signals ∧ released_state.mutex_fd ≠ -1 ∧
    released_state.open_fd = some released_state.mutex_fd ∧
    released_state.holds_lock = true ∧ released_state.display_open = true ∧
    (env_ok one_screen).unlock_error = false ∧ (env_ok one_screen).close_error = false ∧
    (∃ cs, renderer_finish (env_ok one_screen).screens released_state.show_lines
      released_state.renderer = some cs) ∧
    ∃ st', close_display (env_ok one_screen) SIGTERM released_state = some st' ∧
      st'.exit_status = some 0 ∧ st'.locked = false ∧ st'.holds_lock = false ∧
      st'.open_fd = none ∧ st'.file = none ∧ st'.may_run = 0 ∧ st'.display_open = false ∧
      st'.killed = released_state.killed ∧
      Sys.flock released_state.mutex_fd FlockOp.LOCK_UN 0 ∈ st'.calls ∧
      Sys.close released_state.mutex_fd 0 ∈ st'.calls ∧ Sys.unlink ∈ st'.calls ∧
      st'.calls.getLast? = some (Sys.exit 0) ∧
      ∀ (e2 : Env) (fd : Nat), e2.open_result = some fd → e2.flock_error = false →
        (mutex_lock e2 (State.start st'.file st'.locked)).1 = 0 :=
  ⟨by decide, by decide, by decide, by decide, rfl, rfl, rfl,
    renderer_finish_of_hidden one_screen (PC.hold 0),
    close_display_releases_lock (env_ok one_screen) SIGTERM released_state (by decide)
      (by decide) (by decide) rfl
      (Or.inr (renderer_finish_of_hidden one_screen (PC.hold 0))) rfl rfl⟩

end Finder
